import Mathlib

/-!
Verification of `baselines/toxic_comments/sngp.py` (BERT-SNGP toxic-comment
classifier trainer) against its design specification.

The file is a shallow embedding: tensors become lists of real numbers,
Python dictionaries become functions into `Option`, the dataset iterator
becomes a list of batches, and `tf.errors.OutOfRangeError` becomes the
`Except.error` branch of an `Except` value.  Each definition is translated
from the source file, with a doc comment naming the source symbol.
-/

namespace Sngp

noncomputable section

/-! ## Tensor-level primitives -/

/-- Model of `tf.reduce_mean` on a rank-1 tensor: sum divided by length. -/
def reduceMean (l : List ℝ) : ℝ := l.sum / l.length

/-- Model of `tf.reduce_logsumexp` on a rank-1 tensor:
`log (Σ exp xᵢ)`. -/
def reduceLogSumExp (l : List ℝ) : ℝ := Real.log ((l.map Real.exp).sum)

/-- Model of `tf.nn.sigmoid_cross_entropy_with_logits(labels=z, logits=x)`,
per element, using the formula documented by TensorFlow:
`max(x, 0) - x * z + log(1 + exp(-|x|))`. -/
def sigmoid_cross_entropy_with_logits (z x : ℝ) : ℝ :=
  max x 0 - x * z + Real.log (1 + Real.exp (-|x|))

/-- Model of `tf.nn.sigmoid`, per element. -/
def sigmoid (x : ℝ) : ℝ := 1 / (1 + Real.exp (-x))

/-- Model of `tf.eye(n)`: the `n × n` identity matrix, as an indexing
function. -/
def tfEye (n : ℕ) : ℕ → ℕ → ℝ := fun i j => if i = j then 1 else 0

/-- Model of `tf.linalg.diag_part` of an `n × n` matrix given as an
indexing function. -/
def diag_part (n : ℕ) (m : ℕ → ℕ → ℝ) : List ℝ :=
  (List.range n).map (fun i => m i i)

/-- Columns of a stacked rank-2 tensor whose rows are the elements of
`rows`, read off at column indices `0, …, ncols - 1`.  This models reading
a `(num_samples, batch_size)` tensor along `axis=0`, one batch element at
a time. -/
def tfColumns (rows : List (List ℝ)) (ncols : ℕ) : List (List ℝ) :=
  (List.range ncols).map (fun i => rows.map (fun r => r.getD i 0))

/-! ## Monte-Carlo ensembled negative log-likelihood (`test_step`) -/

/-- The cross-entropy matrix of `test_step` (sngp.py lines 519-523):
`tf.nn.sigmoid_cross_entropy_with_logits` applied to the labels broadcast
across all Monte-Carlo samples and the stacked per-sample logits.  Rows
index samples, columns index batch examples. -/
def ceMatrix (labels : List ℝ) (sampleLogits : List (List ℝ)) : List (List ℝ) :=
  sampleLogits.map (fun ls => List.zipWith sigmoid_cross_entropy_with_logits labels ls)

/-- The ensembled negative log-likelihood of `test_step` (sngp.py lines
519-526): per example, `-logsumexp(-ce, axis=0) + log(num_mc_samples)`,
then `tf.reduce_mean` over the batch. -/
def mcEnsembleNLL (labels : List ℝ) (sampleLogits : List (List ℝ))
    (num_mc_samples : ℕ) : ℝ :=
  reduceMean ((tfColumns (ceMatrix labels sampleLogits) labels.length).map
    (fun ces => -(reduceLogSumExp (ces.map (fun c => -c))) +
      Real.log num_mc_samples))

/-- Plain mean binary cross-entropy of a batch: the quantity `test_step`'s
ensembled NLL is claimed to reduce to for a single Monte-Carlo sample
(it is also exactly the `cross_entropy` branch of `train_step`,
sngp.py lines 438-451). -/
def meanBinaryCrossEntropy (labels logits : List ℝ) : ℝ :=
  reduceMean (List.zipWith sigmoid_cross_entropy_with_logits labels logits)

/-! ## Mean-field calibration (`test_step` / `final_eval_step`) -/

/-- Modelled from the spec: `ed.layers.utils.mean_field_logits` is part of
the external `edward2` library, not of this repository; the spec gives its
contract as `calibrated_logit_i = logit_i / sqrt(1 + mean_field_factor * var_i)`
where `var_i` is the diagonal of the covariance, with
`mean_field_factor < 0` returning the logits unchanged (posterior-mode
passthrough).  Logits and variances are per-example lists. -/
def mean_field_logits (logits variances : List ℝ) (mean_field_factor : ℝ) :
    List ℝ :=
  if mean_field_factor < 0 then logits
  else List.zipWith (fun l v => l / Real.sqrt (1 + mean_field_factor * v))
    logits variances

/-! ## Metric inputs (`train_step` / `test_step`) -/

/-- Model of `tf.cast(labels > FLAGS.ece_label_threshold, tf.float32)`
(sngp.py lines 463 and 514): the raw continuous toxicity labels
thresholded to binary values. -/
def ece_labels (labels : List ℝ) (threshold : ℝ) : List ℝ :=
  labels.map (fun y => if threshold < y then (1 : ℝ) else 0)

/-- Model of `pred_labels = tf.math.argmax(ece_probs, axis=-1)` where
`ece_probs = tf.concat([1. - probs, probs], axis=1)` and
`probs = tf.nn.sigmoid(logits)` (sngp.py lines 461-465 and 511-516).
`tf.math.argmax` returns the smallest index attaining the maximum, so the
prediction is `1` exactly when `1 - p < p`. -/
def pred_labels (logits : List ℝ) : List ℝ :=
  logits.map (fun x => if 1 - sigmoid x < sigmoid x then (1 : ℝ) else 0)

/-- Model of `tf.keras.metrics.Accuracy` over one batch: the fraction of
positions where label and prediction are exactly equal. -/
def kerasAccuracy (yTrue yPred : List ℝ) : ℝ :=
  reduceMean (List.zipWith (fun a b => if a = b then (1 : ℝ) else 0) yTrue yPred)

/-- The accuracy update of `train_step` (sngp.py line 467):
`metrics['train/accuracy'].update_state(labels, pred_labels)` — the RAW
continuous labels are compared with the argmax predictions. -/
def trainStepAccuracy (labels logits : List ℝ) : ℝ :=
  kerasAccuracy labels (pred_labels logits)

/-- The accuracy update of `test_step` (sngp.py line 536):
`metrics['test/acc'].update_state(ece_labels, pred_labels)` — the
thresholded labels are compared with the argmax predictions. -/
def testStepAccuracy (labels logits : List ℝ) (threshold : ℝ) : ℝ :=
  kerasAccuracy (ece_labels labels threshold) (pred_labels logits)

/-- The accuracy the claim describes, written from the spec's words:
plain accuracy "against binary labels thresholded at a configured value",
with predictions the argmax of the class probabilities. -/
def claimedAccuracy (labels logits : List ℝ) (threshold : ℝ) : ℝ :=
  kerasAccuracy (labels.map (fun y => if threshold < y then (1 : ℝ) else 0))
    (pred_labels logits)

/-! ## Training-step loss scaling (`train_step`) -/

/-- The total training loss of `train_step` (sngp.py line 454):
`loss = negative_log_likelihood + l2_loss`. -/
def trainStepLoss (negative_log_likelihood l2_loss : ℝ) : ℝ :=
  negative_log_likelihood + l2_loss

/-- The scaled loss of `train_step` (sngp.py line 456):
`scaled_loss = loss / strategy.num_replicas_in_sync`. -/
def scaled_loss (negative_log_likelihood l2_loss : ℝ) (num_replicas : ℕ) : ℝ :=
  trainStepLoss negative_log_likelihood l2_loss / num_replicas

end

/-! ## Flag validation and path resolution -/

/-- Model of the multi-flags validator
`_check_checkpoint_dir_for_prediction_mode` (sngp.py lines 190-195):
`not prediction_mode or (eval_checkpoint_dir is not None)`.  An absent
flag value (`None`) is `Option.none`. -/
def _check_checkpoint_dir_for_prediction_mode (prediction_mode : Bool)
    (eval_checkpoint_dir : Option String) : Bool :=
  !prediction_mode || eval_checkpoint_dir.isSome

/-- Model of `os.path.join(a, b)` for a relative second component. -/
def osPathJoin (a b : String) : String :=
  if a = "" then b
  else if a.endsWith "/" then a ++ b
  else a ++ "/" ++ b

/-- Model of `resolve_bert_ckpt_and_config_dir` (sngp.py lines 203-216).
Python string truthiness is modelled by comparison with the empty string
(both `None` and `''` are falsy for these flags).  The function returns
the pair `(bert_config_dir, bert_ckpt_dir)` or raises `ValueError`. -/
def resolve_bert_ckpt_and_config_dir (bert_dir bert_config_dir bert_ckpt_dir :
    String) : Except String (String × String) :=
  if bert_ckpt_dir = "" ∨ bert_config_dir = "" then
    if bert_dir = "" then Except.error "bert_dir cannot be empty."
    else
      Except.ok
        (if bert_config_dir = "" then osPathJoin bert_dir "bert_config.json"
         else bert_config_dir,
         if bert_ckpt_dir = "" then osPathJoin bert_dir "bert_model.ckpt"
         else bert_ckpt_dir)
  else Except.ok (bert_config_dir, bert_ckpt_dir)

/-! ## Feature and label extraction -/

/-- Model of the tuple `_IDENTITY_LABELS` (sngp.py lines 180-187). -/
def _IDENTITY_LABELS : List String :=
  ["male", "female", "transgender", "other_gender",
   "heterosexual", "homosexual_gay_or_lesbian", "bisexual",
   "other_sexual_orientation", "christian", "jewish", "muslim",
   "hindu", "buddhist", "atheist", "other_religion", "black",
   "white", "asian", "latino", "other_race_or_ethnicity",
   "physical_disability",
   "intellectual_or_learning_disability",
   "psychiatric_or_mental_illness", "other_disability"]

/-- Model of `create_feature_and_label` (sngp.py lines 219-231).  The
input batch dictionary is a partial map from field names to tensor
values; the result is the feature list `[input_ids, input_mask,
segment_ids]`, the labels, and the association list of identity labels
present in the input (iterated in `_IDENTITY_LABELS` order, as the
source's `for` loop does). -/
def create_feature_and_label {V : Type} (inputs : String → Option V) :
    List (Option V) × Option V × List (String × V) :=
  ([inputs "input_ids", inputs "input_mask", inputs "segment_ids"],
   inputs "labels",
   _IDENTITY_LABELS.filterMap (fun k => (inputs k).map (fun v => (k, v))))

/-! ## Checkpoint restoration at start-up -/

/-- A training checkpoint as far as start-up logic observes it: the
restored `optimizer.iterations` counter. -/
structure TrainCheckpoint where
  iterations : ℕ

/-- What the start-up code of `main` does besides choosing the initial
epoch: either restore the full training state from the checkpoint, or
load only the encoder's pretrained BERT weights. -/
inductive InitAction
  | restoreFullCheckpoint
  | loadBertPretrainedWeights
deriving DecidableEq

/-- Model of the start-up logic of `main` (sngp.py lines 354-372):
`initial_epoch = 0`; if a latest checkpoint exists, restore it and set
`initial_epoch = optimizer.iterations // steps_per_epoch`; otherwise load
the pretrained BERT weights only. -/
def startupInit (latest_checkpoint : Option TrainCheckpoint)
    (steps_per_epoch : ℕ) : InitAction × ℕ :=
  match latest_checkpoint with
  | some c => (InitAction.restoreFullCheckpoint, c.iterations / steps_per_epoch)
  | none => (InitAction.loadBertPretrainedWeights, 0)

/-! ## Loop models: data exhaustion and the epoch loop

The dataset iterator is modelled as the list of batches it has left;
`next` on an empty list raises `tf.errors.OutOfRangeError`. -/

/-- Model of the prediction-mode evaluation loop of `main` (sngp.py lines
625-643): `for step in range(steps): try: … final_eval_step(iterator)
except tf.errors.OutOfRangeError: continue`.  Returns the collected batch
results together with the number of `final_eval_step` calls made (each
call consumes `next(iterator)` or raises).  On exhaustion the `continue`
statement skips the step and the loop keeps running. -/
def predictionEvalLoop {α : Type} : ℕ → List α → List α → ℕ → List α × ℕ
  | 0, _, acc, calls => (acc, calls)
  | steps + 1, [], acc, calls => predictionEvalLoop steps [] acc (calls + 1)
  | steps + 1, b :: rest, acc, calls =>
      predictionEvalLoop steps rest (acc ++ [b]) (calls + 1)

/-- The loop the claim describes, written from the spec's words: an
end-of-data signal "ends that pass early", i.e. the loop stops at the
first exhausted `next(iterator)` call. -/
def claimedEvalLoop {α : Type} : ℕ → List α → List α → ℕ → List α × ℕ
  | 0, _, acc, calls => (acc, calls)
  | _ + 1, [], acc, calls => (acc, calls + 1)
  | steps + 1, b :: rest, acc, calls =>
      claimedEvalLoop steps rest (acc ++ [b]) (calls + 1)

/-- Model of the training-mode evaluation loop of `main` (sngp.py lines
696-700) and of the inner training-step loop (sngp.py lines 677-678):
`for step in range(steps): step_fn(iterator)` with NO exception handler,
so an `OutOfRangeError` propagates out of the loop (`Except.error`).
The processed batches are collected for observability. -/
def runStepsNoHandler {α : Type} : ℕ → List α → List α → Except Unit (List α)
  | 0, _, acc => Except.ok acc
  | _ + 1, [], _ => Except.error ()
  | steps + 1, b :: rest, acc => runStepsNoHandler steps rest (acc ++ [b])

/-! ## Training loop: metric accumulation, summary writes, resets

One epoch's worth of metric updates is abstracted as a single value
`data e` contributed to the shared accumulators; the summary sink is the
list of `(summary_step, accumulated_values)` pairs written. -/

/-- Model of the epoch loop of `main` in training mode (sngp.py lines
675-716), restricted to metric flow: each epoch accumulates its updates
into the shared accumulators; if `epoch % FLAGS.evaluation_interval == 0`
the accumulated results are written to the summary sink at
`step=epoch + 1`; then `metric.reset_states()` runs for every metric at
the end of EVERY epoch.  Arguments: the evaluation interval, the
per-epoch contribution, the first epoch, the number of epochs left, the
current accumulator contents.  Returns the final accumulator contents and
the summary writes in order. -/
def trainingLoop {μ : Type} (evaluation_interval : ℕ) (data : ℕ → μ) :
    ℕ → ℕ → List μ → List μ × List (ℕ × List μ)
  | _, 0, acc => (acc, [])
  | epoch, n + 1, acc =>
      let acc1 := acc ++ [data epoch]
      let writes := if epoch % evaluation_interval = 0
        then [(epoch + 1, acc1)] else []
      let rest := trainingLoop evaluation_interval data (epoch + 1) n []
      (rest.1, writes ++ rest.2)

end Sngp

/-! ## Helper lemmas -/

namespace Sngp

theorem map_getD_range (l : List ℝ) :
    (List.range l.length).map (fun i => l.getD i 0) = l := by
  induction l with
  | nil => simp
  | cons a t ih =>
    rw [List.length_cons, List.range_succ_eq_map, List.map_cons, List.map_map]
    simp only [Function.comp_def, List.getD_cons_zero, List.getD_cons_succ]
    rw [ih]

theorem zipWith_self_replicate (l : List ℝ) (c : ℝ) (g : ℝ → ℝ → ℝ) :
    List.zipWith g l (List.replicate l.length c) = l.map (fun x => g x c) := by
  induction l with
  | nil => simp
  | cons a t ih => simp [List.replicate_succ, ih]

end Sngp

namespace Sngp

/-- Claim C5: on start, if a training checkpoint exists then the full
state is restored and training resumes at epoch
`optimizer.iterations // steps_per_epoch` (which, when `steps_per_epoch`
is positive, is the unique epoch `e` with
`e * steps_per_epoch ≤ iterations < (e + 1) * steps_per_epoch`); if no
checkpoint exists this is not an error: the initial epoch is `0` and only
the encoder's pretrained BERT weights are loaded. -/
theorem c5_checkpoint_restore_or_pretrained :
    ∀ (steps_per_epoch : ℕ),
      startupInit none steps_per_epoch =
        (InitAction.loadBertPretrainedWeights, 0) ∧
      ∀ c : TrainCheckpoint,
        startupInit (some c) steps_per_epoch =
          (InitAction.restoreFullCheckpoint, c.iterations / steps_per_epoch) ∧
        (0 < steps_per_epoch →
          (c.iterations / steps_per_epoch) * steps_per_epoch ≤ c.iterations ∧
          c.iterations < ((c.iterations / steps_per_epoch) + 1) * steps_per_epoch) := by
  intro steps
  refine ⟨rfl, fun c => ⟨rfl, fun hs => ⟨Nat.div_mul_le_self _ _, ?_⟩⟩⟩
  exact (Nat.div_lt_iff_lt_mul hs).mp (Nat.lt_succ_self _)

/-- Claim C6: the prediction-mode flag validator rejects exactly the
configurations with `prediction_mode` set and no `eval_checkpoint_dir`
provided; any configuration with `prediction_mode` false passes, and so
does any with `prediction_mode` true and a provided (in particular a
non-empty) `eval_checkpoint_dir`. -/
theorem c6_prediction_mode_validation :
    ∀ (prediction_mode : Bool) (eval_checkpoint_dir : Option String),
      (_check_checkpoint_dir_for_prediction_mode prediction_mode
          eval_checkpoint_dir = false ↔
        prediction_mode = true ∧ eval_checkpoint_dir = none) ∧
      _check_checkpoint_dir_for_prediction_mode false eval_checkpoint_dir
        = true ∧
      ∀ s : String,
        _check_checkpoint_dir_for_prediction_mode true (some s) = true := by
  intro pm d
  refine ⟨?_, ?_, fun s => rfl⟩
  · cases pm <;> cases d <;>
      simp [_check_checkpoint_dir_for_prediction_mode]
  · cases d <;> rfl

/-- Claim C7: the loss applied to gradients in `train_step` is the total
loss (negative log-likelihood plus L2 regularization) multiplied by
exactly `1 / num_replicas`, so that summing the scaled loss across the
replicas (the cross-replica reduction) recovers the unscaled loss,
whatever the replica count. -/
theorem c7_loss_scaling :
    ∀ (negative_log_likelihood l2_loss : ℝ) (num_replicas : ℕ),
      scaled_loss negative_log_likelihood l2_loss num_replicas =
        (1 / (num_replicas : ℝ)) *
          trainStepLoss negative_log_likelihood l2_loss ∧
      (0 < num_replicas →
        (List.replicate num_replicas
            (scaled_loss negative_log_likelihood l2_loss num_replicas)).sum =
          trainStepLoss negative_log_likelihood l2_loss) := by
  intro nll l2 n
  constructor
  · rw [scaled_loss, one_div, mul_comm, div_eq_mul_inv]
  · intro hn
    rw [List.sum_replicate, nsmul_eq_mul, scaled_loss,
      mul_div_cancel₀]
    exact Nat.cast_ne_zero.mpr hn.ne'

/-- Claim C8: `resolve_bert_ckpt_and_config_dir` raises `ValueError` if
and only if at least one of `bert_ckpt_dir` and `bert_config_dir` is
empty while `bert_dir` is also empty; when both explicit directories are
provided they are returned unchanged and `bert_dir` is never consulted;
when one is missing and `bert_dir` is non-empty, the missing one defaults
to `bert_dir` joined with `bert_config.json` or `bert_model.ckpt`
respectively. -/
theorem c8_resolve_bert_dirs :
    ∀ (bert_dir bert_config_dir bert_ckpt_dir : String),
      ((∃ msg, resolve_bert_ckpt_and_config_dir bert_dir bert_config_dir
          bert_ckpt_dir = Except.error msg) ↔
        (bert_ckpt_dir = "" ∨ bert_config_dir = "") ∧ bert_dir = "") ∧
      (bert_config_dir ≠ "" → bert_ckpt_dir ≠ "" →
        resolve_bert_ckpt_and_config_dir bert_dir bert_config_dir bert_ckpt_dir
          = Except.ok (bert_config_dir, bert_ckpt_dir) ∧
        ∀ other_dir : String,
          resolve_bert_ckpt_and_config_dir other_dir bert_config_dir
            bert_ckpt_dir =
          resolve_bert_ckpt_and_config_dir bert_dir bert_config_dir
            bert_ckpt_dir) ∧
      (bert_dir ≠ "" → bert_config_dir = "" → bert_ckpt_dir ≠ "" →
        resolve_bert_ckpt_and_config_dir bert_dir bert_config_dir bert_ckpt_dir
          = Except.ok (osPathJoin bert_dir "bert_config.json", bert_ckpt_dir)) ∧
      (bert_dir ≠ "" → bert_ckpt_dir = "" → bert_config_dir ≠ "" →
        resolve_bert_ckpt_and_config_dir bert_dir bert_config_dir bert_ckpt_dir
          = Except.ok (bert_config_dir, osPathJoin bert_dir "bert_model.ckpt")) ∧
      (bert_dir ≠ "" → bert_ckpt_dir = "" → bert_config_dir = "" →
        resolve_bert_ckpt_and_config_dir bert_dir bert_config_dir bert_ckpt_dir
          = Except.ok (osPathJoin bert_dir "bert_config.json",
              osPathJoin bert_dir "bert_model.ckpt")) := by
  intro d c k
  unfold resolve_bert_ckpt_and_config_dir
  refine ⟨?_, ?_, ?_, ?_, ?_⟩
  · constructor
    · rintro ⟨msg, hmsg⟩
      by_cases hkc : k = "" ∨ c = "" <;> by_cases hd : d = "" <;>
        simp [hkc, hd] at hmsg ⊢
    · rintro ⟨hkc, hd⟩
      exact ⟨"bert_dir cannot be empty.", by simp [hkc, hd]⟩
  · intro hc hk
    constructor
    · simp [hk, hc]
    · intro d2
      simp [hk, hc]
  · intro hd hc hk
    simp [hk, hc, hd]
  · intro hd hk hc
    simp [hk, hc, hd]
  · intro hd hk hc
    simp [hk, hc, hd]

end Sngp

namespace Sngp

theorem filterMap_pair_keys {V : Type} (inputs : String → Option V) :
    ∀ l : List String,
      (l.filterMap (fun k => (inputs k).map (fun v => (k, v)))).map Prod.fst
        = l.filter (fun k => (inputs k).isSome) := by
  intro l
  induction l with
  | nil => rfl
  | cons a t ih =>
    cases h : inputs a <;>
      simp [List.filterMap_cons, List.filter_cons, h, ih]

/-- Claim C9: `create_feature_and_label` returns the `input_ids`,
`input_mask`, `segment_ids` and `labels` fields unchanged, together with
an additional-labels mapping whose keys are exactly the identity-label
names (from the 24-element `_IDENTITY_LABELS` tuple) present in the
input, each mapped to its unchanged value; no field outside these is read
(inputs agreeing on them produce identical results). -/
theorem c9_create_feature_and_label :
    ∀ (V : Type) (inputs : String → Option V),
      (create_feature_and_label inputs).1 =
        [inputs "input_ids", inputs "input_mask", inputs "segment_ids"] ∧
      (create_feature_and_label inputs).2.1 = inputs "labels" ∧
      ((create_feature_and_label inputs).2.2).map Prod.fst =
        _IDENTITY_LABELS.filter (fun k => (inputs k).isSome) ∧
      (∀ (k : String) (v : V),
        (k, v) ∈ (create_feature_and_label inputs).2.2 ↔
          k ∈ _IDENTITY_LABELS ∧ inputs k = some v) ∧
      _IDENTITY_LABELS.length = 24 ∧
      (∀ g : String → Option V,
        (∀ k ∈ "input_ids" :: "input_mask" :: "segment_ids" :: "labels" ::
          _IDENTITY_LABELS, inputs k = g k) →
        create_feature_and_label inputs = create_feature_and_label g) := by
  intro V inputs
  refine ⟨rfl, rfl, filterMap_pair_keys inputs _, ?_, rfl, ?_⟩
  · intro k v
    constructor
    · intro hmem
      rcases List.mem_filterMap.mp hmem with ⟨a, ha, hav⟩
      rcases Option.map_eq_some'.mp hav with ⟨w, hw, hkv⟩
      rcases Prod.mk.injEq .. ▸ hkv with ⟨hk, hv⟩
      exact ⟨hk ▸ ha, by rw [← hk, hw, hv]⟩
    · rintro ⟨hk, hv⟩
      exact List.mem_filterMap.mpr ⟨k, hk, by rw [hv]; rfl⟩
  · intro g hagree
    unfold create_feature_and_label
    have h1 : inputs "input_ids" = g "input_ids" := hagree _ (by simp)
    have h2 : inputs "input_mask" = g "input_mask" := hagree _ (by simp)
    have h3 : inputs "segment_ids" = g "segment_ids" := hagree _ (by simp)
    have h4 : inputs "labels" = g "labels" := hagree _ (by simp)
    rw [h1, h2, h3, h4,
      List.filterMap_congr (fun a ha => by
        rw [hagree a (by simp [ha])])]

theorem trainingLoop_writes {μ : Type} (evaluation_interval : ℕ)
    (data : ℕ → μ) :
    ∀ (n epoch : ℕ),
      (trainingLoop evaluation_interval data epoch n []).2 =
        (List.range n).filterMap (fun k =>
          if (epoch + k) % evaluation_interval = 0
          then some (epoch + k + 1, [data (epoch + k)]) else none) := by
  intro n
  induction n with
  | zero => intro e0; rfl
  | succ m ih =>
    intro e0
    have hrec : (trainingLoop evaluation_interval data e0 (m + 1) []).2 =
        (if e0 % evaluation_interval = 0 then [(e0 + 1, [data e0])] else []) ++
          (trainingLoop evaluation_interval data (e0 + 1) m []).2 := by
      simp only [trainingLoop, List.nil_append]
    rw [hrec, ih (e0 + 1), List.range_succ_eq_map, List.filterMap_cons,
      List.filterMap_map]
    have hcomp : ((fun k => if (e0 + k) % evaluation_interval = 0
          then some (e0 + k + 1, [data (e0 + k)]) else none) ∘ Nat.succ) =
        (fun k => if (e0 + 1 + k) % evaluation_interval = 0
          then some (e0 + 1 + k + 1, [data (e0 + 1 + k)]) else none) := by
      funext k
      simp only [Function.comp_def, Nat.succ_eq_add_one]
      rw [show e0 + (k + 1) = e0 + 1 + k from by omega]
    rw [hcomp]
    by_cases he : e0 % evaluation_interval = 0
    · simp [he]
    · simp [he]

/-- Claim C10: in training mode every metric accumulator is reset at the
end of every epoch, including epochs on which no evaluation runs;
summary scalars are written only on epochs where
`epoch % evaluation_interval = 0`, at summary step `epoch + 1` — so the
write for an evaluation epoch `e` contains exactly the values accumulated
during epoch `e` itself, and values accumulated during non-evaluation
epochs appear in no write. -/
theorem c10_reset_and_summary_schedule :
    ∀ (μ : Type) (evaluation_interval : ℕ) (data : ℕ → μ)
      (initial_epoch n : ℕ),
      (trainingLoop evaluation_interval data initial_epoch n []).2 =
        (List.range n).filterMap (fun k =>
          if (initial_epoch + k) % evaluation_interval = 0
          then some (initial_epoch + k + 1, [data (initial_epoch + k)])
          else none) ∧
      (∀ w ∈ (trainingLoop evaluation_interval data initial_epoch n []).2,
        ∃ e, e % evaluation_interval = 0 ∧ w = (e + 1, [data e])) := by
  intro μ interval data e0 n
  refine ⟨trainingLoop_writes interval data n e0, ?_⟩
  intro w hw
  rw [trainingLoop_writes interval data n e0] at hw
  rcases List.mem_filterMap.mp hw with ⟨k, _, hk⟩
  by_cases hmod : (e0 + k) % interval = 0
  · rw [if_pos hmod] at hk
    exact ⟨e0 + k, hmod, (Option.some.injEq .. ▸ hk).symm⟩
  · rw [if_neg hmod] at hk
    exact absurd hk (Option.noConfusion)

theorem predictionEvalLoop_eq {α : Type} :
    ∀ (steps : ℕ) (it acc : List α) (calls : ℕ),
      predictionEvalLoop steps it acc calls =
        (acc ++ it.take steps, calls + steps) := by
  intro steps
  induction steps with
  | zero => intro it acc calls; simp [predictionEvalLoop]
  | succ m ih =>
    intro it acc calls
    cases it with
    | nil =>
      rw [predictionEvalLoop, ih]
      simp only [List.take_nil, List.append_nil]
      exact Prod.ext rfl (by omega)
    | cons b r =>
      rw [predictionEvalLoop, ih]
      simp only [List.take_succ_cons, List.append_assoc, List.singleton_append]
      exact Prod.ext rfl (by omega)

theorem runStepsNoHandler_eq {α : Type} :
    ∀ (steps : ℕ) (it acc : List α),
      (steps ≤ it.length →
        runStepsNoHandler steps it acc = Except.ok (acc ++ it.take steps)) ∧
      (it.length < steps → runStepsNoHandler steps it acc = Except.error ()) := by
  intro steps
  induction steps with
  | zero =>
    intro it acc
    exact ⟨fun _ => by simp [runStepsNoHandler], fun h => absurd h (by omega)⟩
  | succ m ih =>
    intro it acc
    cases it with
    | nil =>
      refine ⟨fun h => absurd h (by simp), fun _ => rfl⟩
    | cons b r =>
      constructor
      · intro h
        rw [runStepsNoHandler, (ih r (acc ++ [b])).1 (by simpa using h)]
        simp
      · intro h
        rw [runStepsNoHandler, (ih r (acc ++ [b])).2 (by simpa using h)]

/-- Claim C3 counterexample: with an iterator holding one batch, the
training-mode evaluation loop (sngp.py lines 696-700, no exception
handler) propagates the end-of-data signal as an error after 2 configured
steps, refuting "not treated as an error"; and the prediction-mode loop
(sngp.py lines 631-635, `except … continue`) does not end the pass early:
over 3 configured steps it makes 3 `final_eval_step` calls, where ending
the pass at the end-of-data signal would make only 2. -/
theorem c3_counterexample :
    runStepsNoHandler 2 [(0 : ℕ)] [] = Except.error () ∧
    (predictionEvalLoop 3 [(0 : ℕ)] [] 0).2 = 3 ∧
    (claimedEvalLoop 3 [(0 : ℕ)] [] 0).2 = 2 := by
  exact ⟨rfl, rfl, rfl⟩

/-- Claim C3 amended: in the prediction-mode evaluation loop, end-of-data
is caught per step and the step is skipped (`continue`); the loop still
attempts every one of the configured steps (making exactly `steps`
`final_eval_step` calls) but collects only the batches available before
exhaustion, and no error propagates — observably the collected results
equal those of a pass that ends early.  In the training-mode evaluation
loop (and likewise the inner training-step loop) there is no handler: the
pass completes normally when enough batches remain, and otherwise the
end-of-data signal propagates as an error rather than ending the epoch. -/
theorem c3_amended_data_exhaustion :
    ∀ (α : Type) (steps : ℕ) (it : List α),
      predictionEvalLoop steps it [] 0 = (it.take steps, steps) ∧
      (steps ≤ it.length →
        runStepsNoHandler steps it [] = Except.ok (it.take steps)) ∧
      (it.length < steps →
        runStepsNoHandler steps it [] = Except.error ()) := by
  intro α steps it
  refine ⟨?_, fun h => ?_, fun h => (runStepsNoHandler_eq steps it []).2 h⟩
  · rw [predictionEvalLoop_eq]
    simp
  · rw [(runStepsNoHandler_eq steps it []).1 h]
    simp

end Sngp

namespace Sngp

theorem single_sample_nll_term (c : ℝ) :
    -(reduceLogSumExp ([c].map (fun x => -x))) + Real.log ((1 : ℕ) : ℝ) = c := by
  simp [reduceLogSumExp, Real.log_exp]

/-- Claim C1: the evaluation negative log-likelihood is the per-example
`-logsumexp(-crossentropy_per_sample) + log(num_mc_samples)` averaged
over the batch (this is `mcEnsembleNLL`, the direct translation of
`test_step`), and with `num_mc_samples = 1` it equals the plain mean
binary cross-entropy of the batch; in particular it does so on the batch
with labels `[1,0,1,0]` and logits `[2,-2,2,-2]`. -/
theorem c1_single_sample_nll_is_mean_bce :
    ∀ (labels logits : List ℝ), logits.length = labels.length →
      mcEnsembleNLL labels [logits] 1 = meanBinaryCrossEntropy labels logits ∧
      mcEnsembleNLL [1, 0, 1, 0] [[2, -2, 2, -2]] 1 =
        meanBinaryCrossEntropy [1, 0, 1, 0] [2, -2, 2, -2] := by
  have main : ∀ (labels logits : List ℝ), logits.length = labels.length →
      mcEnsembleNLL labels [logits] 1 = meanBinaryCrossEntropy labels logits := by
    intro labels logits h
    have hrow : (List.zipWith sigmoid_cross_entropy_with_logits labels
        logits).length = labels.length := by
      rw [List.length_zipWith, h, min_self]
    unfold mcEnsembleNLL meanBinaryCrossEntropy
    congr 1
    calc (tfColumns (ceMatrix labels [logits]) labels.length).map
          (fun ces => -(reduceLogSumExp (ces.map (fun c => -c))) +
            Real.log ((1 : ℕ) : ℝ))
        = (List.range labels.length).map (fun i =>
            -(reduceLogSumExp (([(List.zipWith
                sigmoid_cross_entropy_with_logits labels logits).getD i 0]).map
                  (fun c => -c))) + Real.log ((1 : ℕ) : ℝ)) := by
          simp [tfColumns, ceMatrix, List.map_map, Function.comp_def]
      _ = (List.range labels.length).map (fun i =>
            (List.zipWith sigmoid_cross_entropy_with_logits labels
              logits).getD i 0) := by
          exact List.map_congr_left (fun i _ => single_sample_nll_term _)
      _ = List.zipWith sigmoid_cross_entropy_with_logits labels logits := by
          rw [← hrow]
          exact map_getD_range _
  intro labels logits h
  exact ⟨main labels logits h, main [1, 0, 1, 0] [2, -2, 2, -2] rfl⟩

theorem diag_part_tfEye (n : ℕ) :
    diag_part n (tfEye n) = List.replicate n (1 : ℝ) := by
  refine List.eq_replicate_iff.mpr ⟨by simp [diag_part], ?_⟩
  intro b hb
  simp [diag_part, tfEye] at hb
  exact hb.2

/-- Claim C2 counterexample: in baseline (non-GP) mode the substituted
covariance is the identity, whose diagonal is all ones — so with the
default configured `mean_field_factor = 1e-4` the mean-field calibration
divides each logit by `sqrt(1 + 1e-4)` and is NOT a no-op: on the
single-example batch with logit `2` the calibrated logits differ from the
raw logits. -/
theorem c2_counterexample :
    mean_field_logits [2] (diag_part 1 (tfEye 1)) (1 / 10000) ≠ [2] := by
  have hd : diag_part 1 (tfEye 1) = [(1 : ℝ)] := by
    simp [diag_part, tfEye, List.range_succ]
  rw [hd]
  unfold mean_field_logits
  rw [if_neg (by norm_num)]
  simp only [List.zipWith_cons_cons, List.zipWith_nil_right]
  intro hEq
  have h2 : (2 : ℝ) / Real.sqrt (1 + 1 / 10000 * 1) = 2 := by
    have := congrArg (fun l : List ℝ => l.getD 0 0) hEq
    simpa using this
  have hs : (1 : ℝ) < Real.sqrt (1 + 1 / 10000 * 1) := by
    have h1 := Real.sqrt_lt_sqrt (by norm_num : (0 : ℝ) ≤ 1)
      (by norm_num : (1 : ℝ) < 1 + 1 / 10000 * 1)
    rwa [Real.sqrt_one] at h1
  have hlt : (2 : ℝ) / Real.sqrt (1 + 1 / 10000 * 1) < 2 :=
    div_lt_self (by norm_num) hs
  exact absurd h2 (ne_of_lt hlt)

/-- Claim C2 amended: in baseline (non-GP) mode the covariance
substituted before mean-field calibration is the identity matrix (its
diagonal is all ones, not zero epistemic variance in the calibrator's
sense), and applying the calibration identically to it divides every
logit by `sqrt(1 + mean_field_factor)`; this is a no-op exactly in the
degenerate cases `mean_field_factor = 0` and `mean_field_factor < 0`
(posterior-mode passthrough), but not for the configured default
`1e-4`. -/
theorem c2_amended_identity_covariance :
    ∀ (logits : List ℝ) (mean_field_factor : ℝ) (n : ℕ),
      diag_part n (tfEye n) = List.replicate n (1 : ℝ) ∧
      (¬ mean_field_factor < 0 →
        mean_field_logits logits
            (diag_part logits.length (tfEye logits.length)) mean_field_factor =
          logits.map (fun l => l / Real.sqrt (1 + mean_field_factor))) ∧
      mean_field_logits logits
          (diag_part logits.length (tfEye logits.length)) 0 = logits ∧
      (mean_field_factor < 0 →
        mean_field_logits logits
            (diag_part logits.length (tfEye logits.length)) mean_field_factor =
          logits) := by
  intro l f n
  refine ⟨diag_part_tfEye n, fun hf => ?_, ?_, fun hf => by
    rw [mean_field_logits, if_pos hf]⟩
  · rw [mean_field_logits, if_neg hf, diag_part_tfEye,
      zipWith_self_replicate]
    simp [mul_one]
  · rw [mean_field_logits, if_neg (lt_irrefl 0), diag_part_tfEye,
      zipWith_self_replicate]
    simp

end Sngp

namespace Sngp

theorem argmax_pos_iff (x : ℝ) : (1 - sigmoid x < sigmoid x) ↔ 0 < x := by
  unfold sigmoid
  have hE : 0 < Real.exp (-x) := Real.exp_pos _
  have h1 : 0 < 1 + Real.exp (-x) := by linarith
  rw [sub_lt_iff_lt_add, ← two_mul, mul_one_div, lt_div_iff₀ h1, one_mul]
  constructor
  · intro h
    have hlt : Real.exp (-x) < 1 := by linarith
    have := Real.exp_lt_one_iff.mp hlt
    linarith
  · intro h
    have hlt : Real.exp (-x) < 1 := Real.exp_lt_one_iff.mpr (by linarith)
    linarith

/-- Claim C4 counterexample: on the single-example training batch with
raw label `0.5` and logit `-1` (threshold `0.7`), the accuracy computed
by `train_step` — which compares the RAW continuous labels to the argmax
predictions — is `0`, while the accuracy against thresholded binary
labels that the claim describes is `1`. -/
theorem c4_counterexample :
    trainStepAccuracy [1 / 2] [-1] ≠ claimedAccuracy [1 / 2] [-1] (7 / 10) := by
  have hpred : pred_labels [(-1 : ℝ)] = [0] := by
    unfold pred_labels
    rw [List.map_cons, List.map_nil,
      if_neg (by rw [argmax_pos_iff]; norm_num)]
  unfold trainStepAccuracy claimedAccuracy
  rw [hpred]
  norm_num [kerasAccuracy, reduceMean]

/-- Claim C4 amended: for every evaluation batch, accuracy is computed
against binary labels obtained by thresholding the raw toxicity labels at
the configured threshold, and the ECE labels of both training and
evaluation are thresholded the same way; but the TRAINING accuracy of
`train_step` compares the raw continuous labels themselves to the
predictions.  In all cases the prediction is the argmax of the class
probabilities `[1 - p, p]`, which equals the indicator that the logit is
strictly positive. -/
theorem c4_amended_metric_labels :
    ∀ (labels logits : List ℝ) (threshold : ℝ),
      testStepAccuracy labels logits threshold =
        claimedAccuracy labels logits threshold ∧
      trainStepAccuracy labels logits =
        kerasAccuracy labels (pred_labels logits) ∧
      ece_labels labels threshold =
        labels.map (fun y => if threshold < y then (1 : ℝ) else 0) ∧
      pred_labels logits =
        logits.map (fun x => if 0 < x then (1 : ℝ) else 0) := by
  intro labels logits t
  refine ⟨rfl, rfl, rfl, ?_⟩
  unfold pred_labels
  exact List.map_congr_left (fun x _ => if_congr (argmax_pos_iff x) rfl rfl)

/-- Claim C1 witness: the general single-sample reduction applied to the
concrete 4-example batch with labels `[1,0,1,0]` and logits
`[2,-2,2,-2]`. -/
theorem c1_witness :
    ([2, -2, 2, -2] : List ℝ).length = ([1, 0, 1, 0] : List ℝ).length ∧
    mcEnsembleNLL [1, 0, 1, 0] [[2, -2, 2, -2]] 1 =
      meanBinaryCrossEntropy [1, 0, 1, 0] [2, -2, 2, -2] :=
  ⟨rfl, (c1_single_sample_nll_is_mean_bce [1, 0, 1, 0] [2, -2, 2, -2] rfl).2⟩

end Sngp
